import Mathlib

/-!
Formal model of the `superform-av` capture screen (`src/App.tsx`).

The component is embedded shallowly: the four pieces of React state become a
record `AppState`; every asynchronous device or network outcome (camera
result, location fix, HTTP response) is an input drawn from an environment
record; each handler (`requestPermissions`, `takePicture`,
`getCurrentLocation`, `submitForm`) becomes a pure function from state and
environment to a trace of observable events (alerts shown, the POST
performed, React state setters invoked).  The state after a handler runs is
obtained by folding the setter events over the starting state, so ordering
facts and frame facts are both visible in the trace.

JS numbers that reach strings (latitude/longitude) are modelled as exact
rationals, with `String(n)` modelled by the exact decimal expansion
(ECMAScript prints integral doubles without a decimal point, which is the
case the specification exercises).  JS string `trim`, `split`, `pop` and
`toLowerCase` are modelled directly on character lists.
-/

namespace SuperformAV

/-- Model of `String.prototype.trim`: strip whitespace from both ends (modelled for
the ASCII whitespace characters, the ones occurring in the app). -/
def jsTrim (s : String) : String :=
  String.mk ((((s.toList.dropWhile Char.isWhitespace).reverse.dropWhile
    Char.isWhitespace).reverse))

/-- Model of `String.prototype.toLowerCase` (character-wise). -/
def toLowerStr (s : String) : String :=
  String.mk (s.toList.map Char.toLower)

/-- Model of `String.prototype.split` with a one-character separator, on character
lists: `"" ↦ [[]]`, and every separator occurrence opens a new segment. -/
def splitList (sep : Char) : List Char → List (List Char)
  | [] => [[]]
  | c :: cs =>
    if c = sep then
      [] :: splitList sep cs
    else
      match splitList sep cs with
      | [] => [[c]]
      | h :: t => (c :: h) :: t

/-- Model of `String.prototype.split` with a one-character separator. -/
def splitChar (sep : Char) (s : String) : List String :=
  (splitList sep s.toList).map String.mk

/-- JS truthiness of a string: every string except `""` is truthy. -/
def strTruthy (s : String) : Bool :=
  !(s == "")

/-- JS truthiness of a `string | null` value (`null` and `""` are falsy). -/
def optStrTruthy : Option String → Bool
  | none => false
  | some s => strTruthy s

/-- Exact decimal expansion of a nonnegative rational: the model of
ECMAScript `String(n)` for nonnegative finite-decimal values (a double's
denominator is a power of two, so the search below always succeeds on
values a double can hold; the final branch is an unreachable default). -/
def jsPosToString (q : ℚ) : String :=
  if q.den = 1 then
    toString q.num
  else
    match (List.range 1101).find? (fun k => q.den ∣ 10 ^ k) with
    | some k =>
      let n := q.num.toNat * (10 ^ k / q.den)
      let frac := toString (n % 10 ^ k)
      toString (n / 10 ^ k) ++ "." ++
        String.mk (List.replicate (k - frac.length) '0') ++ frac
    | none => toString q.num ++ "/" ++ toString q.den

/-- The model of ECMAScript `String(n)` for a JS number held as an exact
rational: sign, then the exact decimal expansion. -/
def jsNumberToString (q : ℚ) : String :=
  if q < 0 then "-" ++ jsPosToString (-q) else jsPosToString q

/-- A geolocation fix's coordinates (`currentLocation.coords`). -/
structure Coords where
  latitude : ℚ
  longitude : ℚ
  deriving DecidableEq, Repr

/-- The `Location.LocationObject` as used by the app: only `coords` is read. -/
structure LocationObject where
  coords : Coords
  deriving DecidableEq, Repr

/-- The four React state variables of `App`. -/
structure AppState where
  imageUri : Option String
  description : String
  location : Option LocationObject
  isSubmitting : Bool
  deriving DecidableEq, Repr

/-- Modelled from the spec: `src/models/superForm.ts` is not in the sources;
the submission payload carries the image reference, the trimmed description
when present, and the coordinates (`foto`, `description?`, `lat`, `lng`). -/
structure SuperForm where
  foto : String
  description : Option String
  lat : ℚ
  lng : ℚ
  deriving DecidableEq, Repr

/-- From `src/models/responses.ts`: the backend response payload. -/
structure ResponsePayload (T : Type) where
  message : String
  data : Option T
  error : Bool
  deriving DecidableEq, Repr

/-- The file part appended under the `foto` key (`{uri, name, type}`). -/
structure FilePart where
  uri : String
  name : String
  type : String
  deriving DecidableEq, Repr

/-- One entry of the multipart `FormData` body. -/
inductive FormEntry
  | filePart (key : String) (file : FilePart)
  | textPart (key : String) (value : String)
  deriving DecidableEq, Repr

/-- The key of a `FormData` entry. -/
def FormEntry.key : FormEntry → String
  | .filePart k _ => k
  | .textPart k _ => k

/-- What `fetch` resolved to, as far as the app reads it: the 2xx flag
`response.ok` and the result of `response.json().catch(() => null)`. -/
structure HttpResponse where
  ok : Bool
  json : Option (ResponsePayload SuperForm)
  deriving DecidableEq, Repr

/-- A thrown JS value: an `Error` carrying a message, or anything else. -/
inductive JsError
  | error (message : String)
  | nonError
  deriving DecidableEq, Repr

/-- Outcome of the `fetch` call: a resolved response or a thrown error. -/
inductive FetchOutcome
  | success (resp : HttpResponse)
  | networkError (e : JsError)
  deriving DecidableEq, Repr

/-- Observable events of one handler run: alerts (plain error alerts and the
success alert whose OK button resets the form), the network POST, and the
React state setters. -/
inductive Event
  | alert (title message : String)
  | confirmAlert (title message : String)
  | post (endpoint : String) (body : List FormEntry)
  | setImageUri (uri : Option String)
  | setDescription (d : String)
  | setLocation (loc : Option LocationObject)
  | setSubmitting (b : Bool)
  deriving DecidableEq, Repr

/-- Effect of one setter event on the React state (non-setters: none). -/
def applyEvent (s : AppState) : Event → AppState
  | .setImageUri u => { s with imageUri := u }
  | .setDescription d => { s with description := d }
  | .setLocation l => { s with location := l }
  | .setSubmitting b => { s with isSubmitting := b }
  | _ => s

/-- State reached after a trace of events. -/
def run (s : AppState) (evs : List Event) : AppState :=
  evs.foldl applyEvent s

/-- Modelled from the spec: `src/constants/endpoints.ts` is not in the
sources; the app POSTs to one fixed endpoint, kept abstract here. -/
def CREATE_SUPERFORM_ENDPOINT : String :=
  "CREATE_SUPERFORM_ENDPOINT"

/-- Alert text of the missing-photo rejection in `submitForm`. -/
def noPhotoMsg : String :=
  "Debes tomar una foto antes de enviar el formulario"

/-- Alert text used on location failure (in `getCurrentLocation`'s catch
and again in `submitForm`'s null guard). -/
def noLocationMsg : String :=
  "No se pudo obtener la ubicación"

/-- Fallback used when the failure response body has no message. -/
def genericBackendMsg : String :=
  "Ocurrió un error al enviar el formulario."

/-- Fallback used when the caught value is not an `Error` instance. -/
def genericThrownMsg : String :=
  "No se pudo enviar el formulario."

/-- Alert text of `takePicture`'s catch. -/
def photoFailMsg : String :=
  "No se pudo tomar la foto"

/-- The helper `getCurrentLocation`: on success store the fix and return it; the catch
shows an alert and returns `null`.  The environment value `res` is the
outcome of `Location.getCurrentPositionAsync` (`none` models a throw). -/
def getCurrentLocationRun (res : Option LocationObject) :
    List Event × Option LocationObject :=
  match res with
  | some loc => ([Event.setLocation (some loc)], some loc)
  | none => ([Event.alert "Error" noLocationMsg], none)

/-- Model of the file name derivation, `imageUri.split('/').pop()` with a
timestamp-name default (`now` is `Date.now()`;
`??` keeps `""`, it only replaces a missing last element). -/
def fileNameOf (imageUri : String) (now : Nat) : String :=
  match (splitChar '/' imageUri).getLast? with
  | some seg => seg
  | none => "foto-" ++ toString now ++ ".jpg"

/-- Model of `fileName.split('.').pop()?.toLowerCase()` compared with
the string `png`. -/
def mimeTypeOf (fileName : String) : String :=
  if (splitChar '.' fileName).getLast?.map toLowerStr = some "png" then
    "image/png"
  else
    "image/jpeg"

/-- The `FormData` body: the `foto` file part, then `lat` and `lng` as
`String(...)`, then `description` only when the trimmed description is
truthy. -/
def formBody (imageUri fileName mimeType : String) (lat lng : ℚ)
    (trimmedDescription : String) : List FormEntry :=
  [FormEntry.filePart "foto" ⟨imageUri, fileName, mimeType⟩,
   FormEntry.textPart "lat" (jsNumberToString lat),
   FormEntry.textPart "lng" (jsNumberToString lng)] ++
    (if strTruthy trimmedDescription then
      [FormEntry.textPart "description" trimmedDescription]
    else
      [])

/-- The success alert's body (template literal of lines 137-140). -/
def successSummary (imageUri trimmedDescription : String) (lat lng : ℚ) :
    String :=
  "Foto: " ++ (if strTruthy imageUri then "Incluida" else "No incluida") ++
    "\nDescripción: " ++
    (if strTruthy trimmedDescription then trimmedDescription
     else "Sin descripción") ++
    "\nLatitud: " ++ jsNumberToString lat ++
    "\nLongitud: " ++ jsNumberToString lng

/-- Model of `error instanceof Error ? error.message : <generic>`. -/
def jsErrorMessage : JsError → String
  | .error m => m
  | .nonError => genericThrownMsg

/-- The events pressing OK on the success alert produces (its `onPress`
clears the three form state variables). -/
def successOkPressEvents : List Event :=
  [Event.setImageUri none, Event.setDescription "", Event.setLocation none]

/-- The try/catch/finally section of `submitForm`: set the in-flight flag,
POST the body, then according to the fetch outcome either throw and catch
(network error), raise and catch the backend failure, or show the success
alert; the finally clause clears the flag on every path. -/
def fetchSection (body : List FormEntry) (imageUri trimmedDescription : String)
    (lat lng : ℚ) (outcome : FetchOutcome) : List Event :=
  [Event.setSubmitting true, Event.post CREATE_SUPERFORM_ENDPOINT body] ++
    (match outcome with
     | .networkError e => [Event.alert "Error" (jsErrorMessage e)]
     | .success resp =>
       if resp.ok then
         [Event.confirmAlert "Formulario enviado"
           (successSummary imageUri trimmedDescription lat lng)]
       else
         [Event.alert "Error"
           ((resp.json.map (fun p => p.message)).getD genericBackendMsg)]) ++
    [Event.setSubmitting false]

/-- Environment of one `submitForm` run: the outcome of the submit-time
location fetch, the outcome of `fetch`, and `Date.now()`. -/
structure SubmitEnv where
  locationResult : Option LocationObject
  fetchResult : FetchOutcome
  now : Nat
  deriving DecidableEq, Repr

/-- The handler `submitForm` (lines 80-164): reject without a truthy image URI; fetch
the location, rejecting on `null`; derive the trimmed description, file
name and MIME type; build the body; then run the guarded fetch section. -/
def submitForm (s : AppState) (env : SubmitEnv) : List Event :=
  match s.imageUri with
  | none => [Event.alert "Error" noPhotoMsg]
  | some imageUri =>
    if strTruthy imageUri = false then
      [Event.alert "Error" noPhotoMsg]
    else
      let fetched := getCurrentLocationRun env.locationResult
      match fetched.2 with
      | none => fetched.1 ++ [Event.alert "Error" noLocationMsg]
      | some currentLocation =>
        let trimmedDescription := jsTrim s.description
        let fileName := fileNameOf imageUri env.now
        let mimeType := mimeTypeOf fileName
        let payload : SuperForm :=
          ⟨imageUri,
           if strTruthy trimmedDescription then some trimmedDescription
           else none,
           currentLocation.coords.latitude,
           currentLocation.coords.longitude⟩
        let body := formBody imageUri fileName mimeType payload.lat payload.lng
          trimmedDescription
        fetched.1 ++
          fetchSection body imageUri trimmedDescription payload.lat payload.lng
            env.fetchResult

/-- The submit button: `disabled={!imageUri || isSubmitting}`. -/
def submitButtonDisabled (s : AppState) : Bool :=
  !optStrTruthy s.imageUri || s.isSubmitting

/-- One asset of the camera result (only `uri` is read). -/
structure Asset where
  uri : String
  deriving DecidableEq, Repr

/-- Outcome of `ImagePicker.launchCameraAsync`: a resolved result with its
`canceled` flag and `assets` array, or a thrown error. -/
inductive CameraOutcome
  | result (canceled : Bool) (assets : List Asset)
  | thrown
  deriving DecidableEq, Repr

/-- Environment of one `takePicture` run: the camera outcome and, when the
fire-and-forget location pre-fetch runs, its outcome. -/
structure TakePictureEnv where
  camera : CameraOutcome
  prefetchLocation : Option LocationObject
  deriving DecidableEq, Repr

/-- The handler `takePicture` (lines 48-65): store the image URI and start the location
pre-fetch only on a non-canceled result with a first asset; the catch shows
an alert; a canceled or assetless result does nothing. -/
def takePicture (env : TakePictureEnv) : List Event :=
  match env.camera with
  | .thrown => [Event.alert "Error" photoFailMsg]
  | .result canceled assets =>
    match canceled, assets with
    | false, a :: _ =>
      Event.setImageUri (some a.uri) ::
        (getCurrentLocationRun env.prefetchLocation).1
    | _, _ => []

/-- The three permission outcomes (`granted` or not). -/
structure PermEnv where
  camera : Bool
  mediaLibrary : Bool
  location : Bool
  deriving DecidableEq, Repr

/-- The handler `requestPermissions` (lines 30-46): one informational alert when any of
the three permissions is not granted. -/
def requestPermissions (env : PermEnv) : List Event :=
  if (env.camera && env.mediaLibrary && env.location) = false then
    [Event.alert "Permisos requeridos"
      "Esta aplicación necesita permisos de cámara y ubicación para funcionar correctamente."]
  else
    []

/-- Number of plain error alerts in a trace (the success confirmation is
not an error alert). -/
def errorAlertCount (evs : List Event) : Nat :=
  (evs.filter (fun e =>
    match e with
    | .alert _ _ => true
    | _ => false)).length

/-! ## Normal forms of `submitForm` on its three kinds of path -/

theorem submitForm_eq_of_noimg (s : AppState) (env : SubmitEnv)
    (h : optStrTruthy s.imageUri = false) :
    submitForm s env = [Event.alert "Error" noPhotoMsg] := by
  match hs : s.imageUri with
  | none => simp [submitForm, hs]
  | some uri =>
    rw [hs] at h
    simp only [optStrTruthy] at h
    simp [submitForm, hs, h]

theorem submitForm_eq_of_noloc (s : AppState) (env : SubmitEnv) (uri : String)
    (himg : s.imageUri = some uri) (hne : uri ≠ "")
    (hloc : env.locationResult = none) :
    submitForm s env =
      [Event.alert "Error" noLocationMsg, Event.alert "Error" noLocationMsg] := by
  have ht : strTruthy uri = true := by
    simp [strTruthy, hne]
  simp [submitForm, himg, ht, hloc, getCurrentLocationRun]

theorem submitForm_eq_of_valid (s : AppState) (env : SubmitEnv) (uri : String)
    (loc : LocationObject) (himg : s.imageUri = some uri) (hne : uri ≠ "")
    (hloc : env.locationResult = some loc) :
    submitForm s env =
      Event.setLocation (some loc) ::
        fetchSection
          (formBody uri (fileNameOf uri env.now)
            (mimeTypeOf (fileNameOf uri env.now)) loc.coords.latitude
            loc.coords.longitude (jsTrim s.description))
          uri (jsTrim s.description) loc.coords.latitude loc.coords.longitude
          env.fetchResult := by
  have ht : strTruthy uri = true := by
    simp [strTruthy, hne]
  simp [submitForm, himg, ht, hloc, getCurrentLocationRun]

/-! ## Facts about the `split`/`pop` model -/

theorem splitList_ne_nil (sep : Char) (l : List Char) :
    splitList sep l ≠ [] := by
  induction l with
  | nil => simp [splitList]
  | cons c cs ih =>
    simp only [splitList]
    split
    · simp
    · split <;> simp

theorem splitList_length (sep : Char) (l : List Char) :
    (splitList sep l).length = l.count sep + 1 := by
  induction l with
  | nil => simp [splitList]
  | cons c cs ih =>
    simp only [splitList]
    by_cases h : c = sep
    · simp [h, List.count_cons, ih]
    · obtain ⟨a, t, ha⟩ :=
        List.exists_cons_of_ne_nil (splitList_ne_nil sep cs)
      rw [ha] at ih
      simp only [h, if_false, ha]
      simp only [List.length_cons] at ih ⊢
      have hc : (c :: cs).count sep = cs.count sep := by
        simp [List.count_cons, h]
      omega

theorem splitList_sep_free (sep : Char) (l : List Char) (h : sep ∉ l) :
    splitList sep l = [l] := by
  induction l with
  | nil => rfl
  | cons c cs ih =>
    simp only [List.mem_cons, not_or] at h
    have h1 : ¬ c = sep := fun hc => h.1 hc.symm
    simp only [splitList, h1, if_false, ih h.2]

theorem getLast?_splitList_append (sep : Char) (xs ys : List Char)
    (h : sep ∉ ys) :
    (splitList sep (xs ++ sep :: ys)).getLast? = some ys := by
  induction xs with
  | nil =>
    simp only [List.nil_append, splitList, if_pos rfl,
      splitList_sep_free sep ys h]
    rfl
  | cons x xs ih =>
    simp only [List.cons_append, splitList, List.append_eq]
    by_cases hx : x = sep
    · rw [if_pos hx]
      obtain ⟨a, t, ha⟩ :=
        List.exists_cons_of_ne_nil (splitList_ne_nil sep (xs ++ sep :: ys))
      rw [ha, List.getLast?_cons_cons]
      rw [ha] at ih
      exact ih
    · rw [if_neg hx]
      have hlen : 2 ≤ (splitList sep (xs ++ sep :: ys)).length := by
        rw [splitList_length]
        have h1 : 1 ≤ (xs ++ sep :: ys).count sep := by
          rw [List.count_append]
          have h2 : 1 ≤ (sep :: ys).count sep := by
            simp [List.count_cons]
          omega
        omega
      obtain ⟨a, t0, ha⟩ :=
        List.exists_cons_of_ne_nil (splitList_ne_nil sep (xs ++ sep :: ys))
      rw [ha] at ih hlen
      have ht0 : t0 ≠ [] := by
        intro h0
        rw [h0] at hlen
        simp at hlen
      obtain ⟨b, t, hb⟩ := List.exists_cons_of_ne_nil ht0
      subst hb
      rw [ha]
      show ((x :: a) :: b :: t).getLast? = some ys
      rw [List.getLast?_cons_cons]
      rw [List.getLast?_cons_cons] at ih
      exact ih

theorem splitChar_ne_nil (sep : Char) (u : String) :
    splitChar sep u ≠ [] := by
  unfold splitChar
  simp [splitList_ne_nil]

theorem splitChar_sep_free (sep : Char) (u : String) (h : sep ∉ u.toList) :
    splitChar sep u = [u] := by
  unfold splitChar
  rw [splitList_sep_free sep u.toList h]
  rfl

theorem getLast?_splitChar_append (sep : Char) (pre seg : String)
    (h : sep ∉ seg.toList) :
    (splitChar sep (pre ++ String.mk [sep] ++ seg)).getLast? = some seg := by
  unfold splitChar
  rw [List.getLast?_map]
  have hd : (pre ++ String.mk [sep] ++ seg).toList =
      pre.toList ++ sep :: seg.toList := by
    show (pre ++ String.mk [sep] ++ seg).data = pre.data ++ sep :: seg.data
    rw [String.data_append, String.data_append]
    simp
  rw [hd, getLast?_splitList_append sep _ _ h]
  rfl

theorem fetchSection_cons (body : List FormEntry)
    (imageUri trimmedDescription : String) (lat lng : ℚ)
    (outcome : FetchOutcome) :
    ∃ rest, fetchSection body imageUri trimmedDescription lat lng outcome =
      Event.setSubmitting true :: rest :=
  ⟨_, rfl⟩

/-! ## The claims -/

/-- C1: no POST is performed while the image reference is absent or a
submission is in flight: `submitForm` with a `null` image URI produces
exactly the user-visible error alert and no POST event, and the submit
trigger is disabled whenever the image URI is `null` or `isSubmitting`. -/
theorem claim_C1 (s : AppState) (env : SubmitEnv) :
    (s.imageUri = none →
      submitForm s env = [Event.alert "Error" noPhotoMsg] ∧
      ∀ ep b, Event.post ep b ∉ submitForm s env) ∧
    ((s.imageUri = none ∨ s.isSubmitting = true) →
      submitButtonDisabled s = true) := by
  constructor
  · intro h
    have he := submitForm_eq_of_noimg s env (by simp [optStrTruthy, h])
    refine ⟨he, ?_⟩
    intro ep b
    rw [he]
    simp
  · intro h
    rcases h with h | h
    · simp [submitButtonDisabled, optStrTruthy, h]
    · simp [submitButtonDisabled, h]

/-- C1 witness: at the empty session, `submitForm` only alerts and the
submit button is disabled. -/
theorem claim_C1_witness :
    submitForm ⟨none, "", none, false⟩
        ⟨none, FetchOutcome.networkError JsError.nonError, 0⟩ =
      [Event.alert "Error" noPhotoMsg] ∧
    submitButtonDisabled ⟨none, "", none, false⟩ = true := by
  have h := claim_C1 ⟨none, "", none, false⟩
    ⟨none, FetchOutcome.networkError JsError.nonError, 0⟩
  exact ⟨(h.1 rfl).1, h.2 (Or.inl rfl)⟩

/-- C2: whenever a `submitForm` run sets the in-flight flag, the run ends
with the flag cleared — the resulting state has `isSubmitting = false` and
the last event of the trace is the `finally` clause's
`setIsSubmitting(false)`, on all three exits (success, HTTP error status,
network error). -/
theorem claim_C2 (s : AppState) (env : SubmitEnv)
    (h : Event.setSubmitting true ∈ submitForm s env) :
    (run s (submitForm s env)).isSubmitting = false ∧
    (submitForm s env).getLast? = some (Event.setSubmitting false) := by
  match hs : s.imageUri with
  | none =>
    rw [submitForm_eq_of_noimg s env (by simp [optStrTruthy, hs])] at h
    simp at h
  | some uri =>
    by_cases hne : uri = ""
    · rw [submitForm_eq_of_noimg s env
        (by simp [optStrTruthy, strTruthy, hs, hne])] at h
      simp at h
    · match hl : env.locationResult with
      | none =>
        rw [submitForm_eq_of_noloc s env uri hs hne hl] at h
        simp at h
      | some loc =>
        rw [submitForm_eq_of_valid s env uri loc hs hne hl]
        match hf : env.fetchResult with
        | .networkError e =>
          exact ⟨by simp [run, fetchSection, applyEvent],
            by simp [fetchSection]⟩
        | .success resp =>
          match hok : resp.ok with
          | true =>
            exact ⟨by simp [run, fetchSection, applyEvent, hok],
              by simp [fetchSection, hok]⟩
          | false =>
            exact ⟨by simp [run, fetchSection, applyEvent, hok],
              by simp [fetchSection, hok]⟩

/-- C2 witness: a concrete run that sets the flag ends with it cleared. -/
theorem claim_C2_witness :
    Event.setSubmitting true ∈
      submitForm ⟨some "p.jpg", "", none, false⟩
        ⟨some ⟨⟨40, -75⟩⟩, FetchOutcome.success ⟨true, none⟩, 7⟩ ∧
    (run ⟨some "p.jpg", "", none, false⟩
      (submitForm ⟨some "p.jpg", "", none, false⟩
        ⟨some ⟨⟨40, -75⟩⟩,
          FetchOutcome.success ⟨true, none⟩, 7⟩)).isSubmitting = false :=
  ⟨by decide,
   (claim_C2 ⟨some "p.jpg", "", none, false⟩
     ⟨some ⟨⟨40, -75⟩⟩, FetchOutcome.success ⟨true, none⟩, 7⟩ (by decide)).1⟩

/-- C3: on a reachable submit whose response status is non-2xx, a parsed
body with a `message` makes exactly that message the displayed error, an
unparseable body (parsed to `null`, nothing thrown) yields the generic
fallback, and the success confirmation appears if and only if the status is
2xx — never because of the body. -/
theorem claim_C3 (s : AppState) (env : SubmitEnv) (uri : String)
    (resp : HttpResponse) (himg : s.imageUri = some uri) (hne : uri ≠ "")
    (hloc : env.locationResult.isSome = true)
    (hf : env.fetchResult = FetchOutcome.success resp) :
    (resp.ok = false → ∀ p, resp.json = some p →
      Event.alert "Error" p.message ∈ submitForm s env ∧
      ∀ t m, Event.alert t m ∈ submitForm s env →
        t = "Error" ∧ m = p.message) ∧
    (resp.ok = false → resp.json = none →
      Event.alert "Error" genericBackendMsg ∈ submitForm s env ∧
      ∀ t m, Event.alert t m ∈ submitForm s env →
        t = "Error" ∧ m = genericBackendMsg) ∧
    ((∃ m, Event.confirmAlert "Formulario enviado" m ∈ submitForm s env) ↔
      resp.ok = true) := by
  obtain ⟨loc, hl⟩ := Option.isSome_iff_exists.mp hloc
  rw [submitForm_eq_of_valid s env uri loc himg hne hl]
  refine ⟨?_, ?_, ?_⟩
  · intro hok p hp
    constructor
    · simp [fetchSection, hf, hok, hp]
    · intro t m hm
      simpa [fetchSection, hf, hok, hp] using hm
  · intro hok hp
    constructor
    · simp [fetchSection, hf, hok, hp]
    · intro t m hm
      simpa [fetchSection, hf, hok, hp] using hm
  · match hok : resp.ok with
    | true => simp [fetchSection, hf, hok]
    | false => simp [fetchSection, hf, hok]

/-- C3 witness: a 500-style response with body message `X` alerts exactly
`X`. -/
theorem claim_C3_witness :
    Event.alert "Error" "X" ∈
      submitForm ⟨some "p.jpg", "", none, false⟩
        ⟨some ⟨⟨1, 2⟩⟩,
          FetchOutcome.success ⟨false, some ⟨"X", none, true⟩⟩, 0⟩ := by
  have h := claim_C3 ⟨some "p.jpg", "", none, false⟩
    ⟨some ⟨⟨1, 2⟩⟩, FetchOutcome.success ⟨false, some ⟨"X", none, true⟩⟩, 0⟩
    "p.jpg" ⟨false, some ⟨"X", none, true⟩⟩ rfl (by decide) rfl rfl
  exact (h.1 rfl ⟨"X", none, true⟩ rfl).1

/-- C4: the POSTed multipart body holds exactly the fields `foto`, `lat`,
`lng` (the `String(...)` encodings of the fetched coordinates, integral
values printing without a decimal point: `40 ↦ "40"`, `-75 ↦ "-75"`) plus
`description` exactly when the description is truthy after trimming, so a
whitespace-only description is absent rather than blank. -/
theorem claim_C4 (s : AppState) (env : SubmitEnv) (uri : String)
    (loc : LocationObject) (himg : s.imageUri = some uri) (hne : uri ≠ "")
    (hloc : env.locationResult = some loc) :
    Event.post CREATE_SUPERFORM_ENDPOINT
      (formBody uri (fileNameOf uri env.now)
        (mimeTypeOf (fileNameOf uri env.now)) loc.coords.latitude
        loc.coords.longitude (jsTrim s.description)) ∈ submitForm s env ∧
    (formBody uri (fileNameOf uri env.now)
        (mimeTypeOf (fileNameOf uri env.now)) loc.coords.latitude
        loc.coords.longitude (jsTrim s.description)).map FormEntry.key =
      ["foto", "lat", "lng"] ++
        (if strTruthy (jsTrim s.description) then ["description"] else []) ∧
    FormEntry.textPart "lat" (jsNumberToString loc.coords.latitude) ∈
      formBody uri (fileNameOf uri env.now)
        (mimeTypeOf (fileNameOf uri env.now)) loc.coords.latitude
        loc.coords.longitude (jsTrim s.description) ∧
    FormEntry.textPart "lng" (jsNumberToString loc.coords.longitude) ∈
      formBody uri (fileNameOf uri env.now)
        (mimeTypeOf (fileNameOf uri env.now)) loc.coords.latitude
        loc.coords.longitude (jsTrim s.description) ∧
    (strTruthy (jsTrim s.description) = false →
      ∀ d, FormEntry.textPart "description" d ∉
        formBody uri (fileNameOf uri env.now)
          (mimeTypeOf (fileNameOf uri env.now)) loc.coords.latitude
          loc.coords.longitude (jsTrim s.description)) ∧
    (strTruthy (jsTrim s.description) = true →
      FormEntry.textPart "description" (jsTrim s.description) ∈
        formBody uri (fileNameOf uri env.now)
          (mimeTypeOf (fileNameOf uri env.now)) loc.coords.latitude
          loc.coords.longitude (jsTrim s.description)) ∧
    jsNumberToString (40 : ℚ) = "40" ∧
    jsNumberToString (-75 : ℚ) = "-75" := by
  rw [submitForm_eq_of_valid s env uri loc himg hne hloc]
  refine ⟨?_, ?_, ?_, ?_, ?_, ?_, by decide, by decide⟩
  · match hf : env.fetchResult with
    | .networkError e => simp [fetchSection]
    | .success resp =>
      match hok : resp.ok with
      | true => simp [fetchSection, hok]
      | false => simp [fetchSection, hok]
  · by_cases hd : strTruthy (jsTrim s.description) = true
    · simp [formBody, FormEntry.key, hd]
    · simp only [Bool.not_eq_true] at hd
      simp [formBody, FormEntry.key, hd]
  · simp [formBody]
  · simp [formBody]
  · intro hd d
    simp [formBody, hd]
  · intro hd
    simp [formBody, hd]

/-- C4 witness: description `"  Bridge view  "` at `(40, -75)` produces
the fields `foto`, `lat`, `lng`, `description`; a whitespace-only
description produces only `foto`, `lat`, `lng`. -/
theorem claim_C4_witness :
    (formBody "photo.jpg" (fileNameOf "photo.jpg" 0)
        (mimeTypeOf (fileNameOf "photo.jpg" 0)) 40 (-75)
        (jsTrim "  Bridge view  ")).map FormEntry.key =
      ["foto", "lat", "lng", "description"] ∧
    (formBody "photo.jpg" (fileNameOf "photo.jpg" 0)
        (mimeTypeOf (fileNameOf "photo.jpg" 0)) 40 (-75)
        (jsTrim "   ")).map FormEntry.key = ["foto", "lat", "lng"] := by
  have h1 := claim_C4 ⟨some "photo.jpg", "  Bridge view  ", none, false⟩
    ⟨some ⟨⟨40, -75⟩⟩, FetchOutcome.success ⟨true, none⟩, 0⟩ "photo.jpg"
    ⟨⟨40, -75⟩⟩ rfl (by decide) rfl
  have h2 := claim_C4 ⟨some "photo.jpg", "   ", none, false⟩
    ⟨some ⟨⟨40, -75⟩⟩, FetchOutcome.success ⟨true, none⟩, 0⟩ "photo.jpg"
    ⟨⟨40, -75⟩⟩ rfl (by decide) rfl
  refine ⟨?_, ?_⟩
  · have := h1.2.1
    simpa [show strTruthy (jsTrim "  Bridge view  ") = true from by decide]
      using this
  · have := h2.2.1
    simpa [show strTruthy (jsTrim "   ") = false from by decide] using this

/-- C5: with a photo but a failing submit-time location fetch, no POST
happens and the location alert is shown; and `submitForm` never reads the
stored capture-time location (its trace is unchanged under any stored
value), so the fix is always re-fetched at submit time. -/
theorem claim_C5 (s : AppState) (env : SubmitEnv) (uri : String)
    (himg : s.imageUri = some uri) (hne : uri ≠ "")
    (hloc : env.locationResult = none) :
    (∀ ep b, Event.post ep b ∉ submitForm s env) ∧
    Event.alert "Error" noLocationMsg ∈ submitForm s env ∧
    (∀ (s2 : AppState) (env2 : SubmitEnv) (l : Option LocationObject),
      submitForm { s2 with location := l } env2 = submitForm s2 env2) := by
  rw [submitForm_eq_of_noloc s env uri himg hne hloc]
  refine ⟨by simp, by simp, ?_⟩
  intro s2 env2 l
  cases s2
  rfl

/-- C5 witness: photo present, fetch fails: the trace is the two location
alerts and nothing else. -/
theorem claim_C5_witness :
    Event.alert "Error" noLocationMsg ∈
      submitForm ⟨some "p.jpg", "", none, false⟩
        ⟨none, FetchOutcome.networkError JsError.nonError, 3⟩ ∧
    submitForm ⟨some "p.jpg", "",
        some ⟨⟨5, 6⟩⟩, false⟩
      ⟨none, FetchOutcome.networkError JsError.nonError, 3⟩ =
      submitForm ⟨some "p.jpg", "", none, false⟩
        ⟨none, FetchOutcome.networkError JsError.nonError, 3⟩ := by
  have h := claim_C5 ⟨some "p.jpg", "", none, false⟩
    ⟨none, FetchOutcome.networkError JsError.nonError, 3⟩ "p.jpg" rfl
    (by decide) rfl
  exact ⟨h.2.1, h.2.2 ⟨some "p.jpg", "", none, false⟩
    ⟨none, FetchOutcome.networkError JsError.nonError, 3⟩ (some ⟨⟨5, 6⟩⟩)⟩

/-- C6: a 2xx response shows the confirmation summary, and pressing its OK
button leaves the session with image, description and stored location all
cleared. -/
theorem claim_C6 (s : AppState) (env : SubmitEnv) (uri : String)
    (loc : LocationObject) (resp : HttpResponse)
    (himg : s.imageUri = some uri) (hne : uri ≠ "")
    (hloc : env.locationResult = some loc)
    (hf : env.fetchResult = FetchOutcome.success resp)
    (hok : resp.ok = true) :
    Event.confirmAlert "Formulario enviado"
      (successSummary uri (jsTrim s.description) loc.coords.latitude
        loc.coords.longitude) ∈ submitForm s env ∧
    (run (run s (submitForm s env)) successOkPressEvents).imageUri = none ∧
    (run (run s (submitForm s env)) successOkPressEvents).description = "" ∧
    (run (run s (submitForm s env)) successOkPressEvents).location = none := by
  rw [submitForm_eq_of_valid s env uri loc himg hne hloc]
  refine ⟨by simp [fetchSection, hf, hok], ?_, ?_, ?_⟩ <;>
    simp [run, fetchSection, hf, hok, applyEvent, successOkPressEvents]

/-- C6 witness: a concrete successful submission's confirmation and the
cleared state after OK. -/
theorem claim_C6_witness :
    Event.confirmAlert "Formulario enviado"
      (successSummary "p.jpg" (jsTrim "hi") 40 (-75)) ∈
      submitForm ⟨some "p.jpg", "hi", none, false⟩
        ⟨some ⟨⟨40, -75⟩⟩, FetchOutcome.success ⟨true, none⟩, 0⟩ ∧
    (run (run ⟨some "p.jpg", "hi", none, false⟩
        (submitForm ⟨some "p.jpg", "hi", none, false⟩
          ⟨some ⟨⟨40, -75⟩⟩, FetchOutcome.success ⟨true, none⟩, 0⟩))
      successOkPressEvents).imageUri = none := by
  have h := claim_C6 ⟨some "p.jpg", "hi", none, false⟩
    ⟨some ⟨⟨40, -75⟩⟩, FetchOutcome.success ⟨true, none⟩, 0⟩ "p.jpg"
    ⟨⟨40, -75⟩⟩ ⟨true, none⟩ rfl (by decide) rfl rfl rfl
  exact ⟨h.1, h.2.1⟩

/-- C7 counterexample: for image URI `"a/png"` the derived file name is
`"png"`, which contains no dot and so has no extension, yet the submit
attempt uploads it with MIME type `image/png` — the claim requires
`image/jpeg` for a name with no extension.  (`split('.').pop()` returns the
whole name when there is no dot.) -/
theorem claim_C7_counterexample :
    fileNameOf "a/png" 0 = "png" ∧
    '.' ∉ "png".toList ∧
    mimeTypeOf (fileNameOf "a/png" 0) = "image/png" ∧
    mimeTypeOf (fileNameOf "a/png" 0) ≠ "image/jpeg" ∧
    Event.post CREATE_SUPERFORM_ENDPOINT
      (formBody "a/png" "png" "image/png" 1 2 "") ∈
      submitForm ⟨some "a/png", "", none, false⟩
        ⟨some ⟨⟨1, 2⟩⟩, FetchOutcome.success ⟨true, none⟩, 0⟩ := by
  decide

/-- C7 amended: the uploaded file name is the last `/`-separated segment of
the image URI (the timestamp fallback branch exists but the split is never
empty), and the MIME type is inferred from the last `.`-separated segment
of that name, lowercased: `png` gives `image/png` and anything else gives
`image/jpeg` — with a dotless file name serving as its own segment, so a
file named exactly `png` (case-insensitively) gets `image/png` even though
it has no extension. -/
theorem claim_C7_amended (s : AppState) (env : SubmitEnv) (uri : String)
    (loc : LocationObject) (himg : s.imageUri = some uri) (hne : uri ≠ "")
    (hloc : env.locationResult = some loc) :
    (∃ b, Event.post CREATE_SUPERFORM_ENDPOINT b ∈ submitForm s env ∧
      FormEntry.filePart "foto"
        ⟨uri, fileNameOf uri env.now,
          mimeTypeOf (fileNameOf uri env.now)⟩ ∈ b) ∧
    (∀ (u : String) (n : Nat),
      (splitChar '/' u).getLast? = some (fileNameOf u n)) ∧
    (∀ (pre seg : String) (n : Nat), '/' ∉ seg.toList →
      fileNameOf (pre ++ "/" ++ seg) n = seg) ∧
    (∀ fn : String, mimeTypeOf fn = "image/png" ↔
      (splitChar '.' fn).getLast?.map toLowerStr = some "png") ∧
    (∀ base ext : String, '.' ∉ ext.toList →
      mimeTypeOf (base ++ "." ++ ext) =
        (if toLowerStr ext = "png" then "image/png" else "image/jpeg")) ∧
    (∀ fn : String, '.' ∉ fn.toList →
      mimeTypeOf fn =
        (if toLowerStr fn = "png" then "image/png" else "image/jpeg")) := by
  refine ⟨?_, ?_, ?_, ?_, ?_, ?_⟩
  · rw [submitForm_eq_of_valid s env uri loc himg hne hloc]
    refine ⟨formBody uri (fileNameOf uri env.now)
      (mimeTypeOf (fileNameOf uri env.now)) loc.coords.latitude
      loc.coords.longitude (jsTrim s.description), ?_, by simp [formBody]⟩
    match hf : env.fetchResult with
    | .networkError e => simp [fetchSection]
    | .success resp =>
      match hok : resp.ok with
      | true => simp [fetchSection, hok]
      | false => simp [fetchSection, hok]
  · intro u n
    obtain ⟨a, ha⟩ := Option.isSome_iff_exists.mp
      (List.getLast?_isSome.mpr (splitChar_ne_nil '/' u))
    unfold fileNameOf
    rw [ha]
  · intro pre seg n hsf
    unfold fileNameOf
    rw [getLast?_splitChar_append '/' pre seg hsf]
  · intro fn
    by_cases h : (splitChar '.' fn).getLast?.map toLowerStr = some "png"
    · simp [mimeTypeOf, h]
    · simp [mimeTypeOf, h]
  · intro base ext hsf
    unfold mimeTypeOf
    rw [getLast?_splitChar_append '.' base ext hsf]
    by_cases h : toLowerStr ext = "png"
    · simp [h]
    · simp [h]
  · intro fn hsf
    unfold mimeTypeOf
    rw [splitChar_sep_free '.' fn hsf]
    by_cases h : toLowerStr fn = "png"
    · simp [h]
    · simp [h]

/-- C7 amended witness: `"a/b/photo.PNG"` uploads as `photo.PNG` with MIME
`image/png`; a dotless name other than `png` yields `image/jpeg`. -/
theorem claim_C7_amended_witness :
    fileNameOf "a/b/photo.PNG" 5 = "photo.PNG" ∧
    mimeTypeOf "photo.PNG" = "image/png" ∧
    mimeTypeOf "photo" = "image/jpeg" := by
  have h := claim_C7_amended ⟨some "a/b/photo.PNG", "", none, false⟩
    ⟨some ⟨⟨1, 2⟩⟩, FetchOutcome.success ⟨true, none⟩, 5⟩ "a/b/photo.PNG"
    ⟨⟨1, 2⟩⟩ rfl (by decide) rfl
  refine ⟨?_, ?_, ?_⟩
  · have h3 := h.2.2.1 "a/b" "photo.PNG" 5 (by decide)
    rw [show ("a/b" ++ "/" ++ "photo.PNG" : String) = "a/b/photo.PNG" from
      by decide] at h3
    exact h3
  · have h5 := h.2.2.2.2.1 "photo" "PNG" (by decide)
    rw [show ("photo" ++ "." ++ "PNG" : String) = "photo.PNG" from
      by decide] at h5
    rw [h5]
    decide
  · have h6 := h.2.2.2.2.2 "photo" (by decide)
    rw [h6]
    decide

/-- C8 counterexample: a submit attempt with a photo whose location fetch
fails shows the same error alert twice (once from `getCurrentLocation`'s
catch and once from `submitForm`'s null guard), not exactly once. -/
theorem claim_C8_counterexample :
    errorAlertCount (submitForm ⟨some "photo.jpg", "", none, false⟩
      ⟨none, FetchOutcome.networkError JsError.nonError, 0⟩) = 2 ∧
    errorAlertCount (submitForm ⟨some "photo.jpg", "", none, false⟩
      ⟨none, FetchOutcome.networkError JsError.nonError, 0⟩) ≠ 1 := by
  decide

/-- C8 amended: every error surfaces at least one alert; permission denial,
capture failure, a location failure outside a submit attempt, and each
submission failure (network error or non-2xx status) surface exactly one
alert, but a location failure during a submit attempt surfaces two
identical alerts (one from the fetch helper's catch, one from the submit
guard); a fully successful submission surfaces none. -/
theorem claim_C8_amended :
    (∀ p : PermEnv, (p.camera && p.mediaLibrary && p.location) = false →
      errorAlertCount (requestPermissions p) = 1) ∧
    (∀ pre, errorAlertCount
      (takePicture ⟨CameraOutcome.thrown, pre⟩) = 1) ∧
    errorAlertCount (getCurrentLocationRun none).1 = 1 ∧
    (∀ loc, errorAlertCount (getCurrentLocationRun (some loc)).1 = 0) ∧
    (∀ (s : AppState) (env : SubmitEnv),
      optStrTruthy s.imageUri = false →
      errorAlertCount (submitForm s env) = 1) ∧
    (∀ (s : AppState) (env : SubmitEnv) (uri : String),
      s.imageUri = some uri → uri ≠ "" → env.locationResult = none →
      errorAlertCount (submitForm s env) = 2) ∧
    (∀ (s : AppState) (env : SubmitEnv) (uri : String)
      (loc : LocationObject) (e : JsError),
      s.imageUri = some uri → uri ≠ "" → env.locationResult = some loc →
      env.fetchResult = FetchOutcome.networkError e →
      errorAlertCount (submitForm s env) = 1) ∧
    (∀ (s : AppState) (env : SubmitEnv) (uri : String)
      (loc : LocationObject) (resp : HttpResponse),
      s.imageUri = some uri → uri ≠ "" → env.locationResult = some loc →
      env.fetchResult = FetchOutcome.success resp → resp.ok = false →
      errorAlertCount (submitForm s env) = 1) ∧
    (∀ (s : AppState) (env : SubmitEnv) (uri : String)
      (loc : LocationObject) (resp : HttpResponse),
      s.imageUri = some uri → uri ≠ "" → env.locationResult = some loc →
      env.fetchResult = FetchOutcome.success resp → resp.ok = true →
      errorAlertCount (submitForm s env) = 0) := by
  refine ⟨?_, ?_, by decide, ?_, ?_, ?_, ?_, ?_, ?_⟩
  · intro p hp
    simp [requestPermissions, hp, errorAlertCount]
  · intro pre
    simp [takePicture, errorAlertCount]
  · intro loc
    simp [getCurrentLocationRun, errorAlertCount]
  · intro s env h
    rw [submitForm_eq_of_noimg s env h]
    decide
  · intro s env uri h1 h2 h3
    rw [submitForm_eq_of_noloc s env uri h1 h2 h3]
    decide
  · intro s env uri loc e h1 h2 h3 h4
    rw [submitForm_eq_of_valid s env uri loc h1 h2 h3]
    simp [fetchSection, h4, errorAlertCount]
  · intro s env uri loc resp h1 h2 h3 h4 h5
    rw [submitForm_eq_of_valid s env uri loc h1 h2 h3]
    simp [fetchSection, h4, h5, errorAlertCount]
  · intro s env uri loc resp h1 h2 h3 h4 h5
    rw [submitForm_eq_of_valid s env uri loc h1 h2 h3]
    simp [fetchSection, h4, h5, errorAlertCount]

/-- C8 amended witness: concrete single-alert and double-alert runs. -/
theorem claim_C8_amended_witness :
    errorAlertCount (submitForm ⟨some "p.jpg", "", none, false⟩
      ⟨none, FetchOutcome.networkError JsError.nonError, 0⟩) = 2 ∧
    errorAlertCount (submitForm ⟨some "p.jpg", "", none, false⟩
      ⟨some ⟨⟨1, 2⟩⟩, FetchOutcome.networkError (JsError.error "boom"), 0⟩) =
      1 := by
  have h := claim_C8_amended
  exact ⟨h.2.2.2.2.2.1 ⟨some "p.jpg", "", none, false⟩
      ⟨none, FetchOutcome.networkError JsError.nonError, 0⟩ "p.jpg" rfl
      (by decide) rfl,
    h.2.2.2.2.2.2.1 ⟨some "p.jpg", "", none, false⟩
      ⟨some ⟨⟨1, 2⟩⟩, FetchOutcome.networkError (JsError.error "boom"), 0⟩
      "p.jpg" ⟨⟨1, 2⟩⟩ (JsError.error "boom") rfl (by decide) rfl rfl⟩

/-- C9: a canceled or failed capture leaves the session unchanged — no
image reference is ever stored outside the success case — and an alert
appears exactly on the thrown (unexpected) failure, never on cancellation;
a successful capture stores the asset's URI and immediately starts the
fire-and-forget location pre-fetch. -/
theorem claim_C9 (env : TakePictureEnv) :
    (env.camera = CameraOutcome.thrown →
      takePicture env = [Event.alert "Error" photoFailMsg]) ∧
    (∀ assets, env.camera = CameraOutcome.result true assets →
      takePicture env = []) ∧
    (env.camera = CameraOutcome.result false [] → takePicture env = []) ∧
    (∀ u, Event.setImageUri u ∈ takePicture env →
      ∃ a rest, env.camera = CameraOutcome.result false (a :: rest) ∧
        u = some a.uri) ∧
    (∀ t m, Event.alert t m ∈ takePicture env →
      env.camera = CameraOutcome.thrown ∨
        (∃ a rest, env.camera = CameraOutcome.result false (a :: rest) ∧
          env.prefetchLocation = none)) ∧
    (∀ a rest, env.camera = CameraOutcome.result false (a :: rest) →
      takePicture env = Event.setImageUri (some a.uri) ::
        (getCurrentLocationRun env.prefetchLocation).1) := by
  refine ⟨?_, ?_, ?_, ?_, ?_, ?_⟩
  · intro h
    simp [takePicture, h]
  · intro assets h
    simp [takePicture, h]
  · intro h
    simp [takePicture, h]
  · intro u hu
    match hc : env.camera with
    | .thrown => rw [takePicture, hc] at hu; simp at hu
    | .result true assets => rw [takePicture, hc] at hu; simp at hu
    | .result false [] => rw [takePicture, hc] at hu; simp at hu
    | .result false (a :: rest) =>
      rw [takePicture, hc] at hu
      match hp : env.prefetchLocation with
      | some loc =>
        rw [hp] at hu
        simp [getCurrentLocationRun] at hu
        exact ⟨a, rest, rfl, hu⟩
      | none =>
        rw [hp] at hu
        simp [getCurrentLocationRun] at hu
        exact ⟨a, rest, rfl, hu⟩
  · intro t m hm
    match hc : env.camera with
    | .thrown => exact Or.inl rfl
    | .result true assets => rw [takePicture, hc] at hm; simp at hm
    | .result false [] => rw [takePicture, hc] at hm; simp at hm
    | .result false (a :: rest) =>
      rw [takePicture, hc] at hm
      match hp : env.prefetchLocation with
      | some loc =>
        rw [hp] at hm
        simp [getCurrentLocationRun] at hm
      | none => exact Or.inr ⟨a, rest, rfl, rfl⟩
  · intro a rest h
    simp [takePicture, h]

/-- C9 witness: cancellation produces an empty trace; a successful capture
stores the URI and pre-fetches. -/
theorem claim_C9_witness :
    takePicture ⟨CameraOutcome.result true [⟨"u"⟩], some ⟨⟨1, 2⟩⟩⟩ = [] ∧
    takePicture ⟨CameraOutcome.result false [⟨"u"⟩], some ⟨⟨1, 2⟩⟩⟩ =
      [Event.setImageUri (some "u"),
        Event.setLocation (some ⟨⟨1, 2⟩⟩)] := by
  refine ⟨(claim_C9 ⟨CameraOutcome.result true [⟨"u"⟩],
    some ⟨⟨1, 2⟩⟩⟩).2.1 [⟨"u"⟩] rfl, ?_⟩
  have h := (claim_C9 ⟨CameraOutcome.result false [⟨"u"⟩],
    some ⟨⟨1, 2⟩⟩⟩).2.2.2.2.2 ⟨"u"⟩ [] rfl
  rw [h]
  rfl

/-- C10: the in-flight flag is touched only after validation — on the
no-image and no-location exits `setIsSubmitting` is never invoked at all,
a trace that sets the flag implies both checks passed, and on the
validated path the submit-time fetch's `setLocation` strictly precedes
`setIsSubmitting(true)`. -/
theorem claim_C10 (s : AppState) (env : SubmitEnv) :
    ((optStrTruthy s.imageUri = false ∨ env.locationResult = none) →
      ∀ b, Event.setSubmitting b ∉ submitForm s env) ∧
    (Event.setSubmitting true ∈ submitForm s env →
      (∃ uri, s.imageUri = some uri ∧ uri ≠ "") ∧
        env.locationResult.isSome = true) ∧
    (∀ uri loc, s.imageUri = some uri → uri ≠ "" →
      env.locationResult = some loc →
      ∃ rest, submitForm s env =
        Event.setLocation (some loc) :: Event.setSubmitting true :: rest) := by
  refine ⟨?_, ?_, ?_⟩
  · intro h b
    rcases h with h | h
    · rw [submitForm_eq_of_noimg s env h]
      simp
    · match hs : s.imageUri with
      | none =>
        rw [submitForm_eq_of_noimg s env (by simp [optStrTruthy, hs])]
        simp
      | some uri =>
        by_cases hne : uri = ""
        · rw [submitForm_eq_of_noimg s env
            (by simp [optStrTruthy, strTruthy, hs, hne])]
          simp
        · rw [submitForm_eq_of_noloc s env uri hs hne h]
          simp
  · intro h
    match hs : s.imageUri with
    | none =>
      rw [submitForm_eq_of_noimg s env (by simp [optStrTruthy, hs])] at h
      simp at h
    | some uri =>
      by_cases hne : uri = ""
      · rw [submitForm_eq_of_noimg s env
          (by simp [optStrTruthy, strTruthy, hs, hne])] at h
        simp at h
      · match hl : env.locationResult with
        | none =>
          rw [submitForm_eq_of_noloc s env uri hs hne hl] at h
          simp at h
        | some loc => exact ⟨⟨uri, rfl, hne⟩, rfl⟩
  · intro uri loc hs hne hl
    rw [submitForm_eq_of_valid s env uri loc hs hne hl]
    obtain ⟨rest, hr⟩ := fetchSection_cons
      (formBody uri (fileNameOf uri env.now)
        (mimeTypeOf (fileNameOf uri env.now)) loc.coords.latitude
        loc.coords.longitude (jsTrim s.description))
      uri (jsTrim s.description) loc.coords.latitude loc.coords.longitude
      env.fetchResult
    exact ⟨rest, by rw [hr]⟩

/-- C10 witness: a rejected submit (no location) never touches the flag; a
validated one fetches the location before setting it. -/
theorem claim_C10_witness :
    Event.setSubmitting true ∉
      submitForm ⟨some "p.jpg", "", none, false⟩
        ⟨none, FetchOutcome.networkError JsError.nonError, 0⟩ ∧
    (∃ rest, submitForm ⟨some "p.jpg", "", none, false⟩
        ⟨some ⟨⟨1, 2⟩⟩, FetchOutcome.success ⟨true, none⟩, 0⟩ =
      Event.setLocation (some ⟨⟨1, 2⟩⟩) ::
        Event.setSubmitting true :: rest) := by
  refine ⟨(claim_C10 ⟨some "p.jpg", "", none, false⟩
      ⟨none, FetchOutcome.networkError JsError.nonError, 0⟩).1
      (Or.inr rfl) true, ?_⟩
  exact (claim_C10 ⟨some "p.jpg", "", none, false⟩
    ⟨some ⟨⟨1, 2⟩⟩, FetchOutcome.success ⟨true, none⟩, 0⟩).2.2 "p.jpg"
    ⟨⟨1, 2⟩⟩ rfl (by decide) rfl

end SuperformAV
